import Mathlib

/-!
Shallow embedding of the taskmint productivity tracker core:
the task filter pipeline (Tasks page), the timer session (Timer page),
the dashboard statistics (Dashboard page) and the analytics aggregation
pipeline (Analytics page). Timestamps are modelled as natural numbers
(seconds since epoch, UTC); a calendar day is the fixed span of 86400
seconds, and the date of a timestamp is its day index.
-/

namespace TaskMint

/-- Length of one day in seconds (UTC model, no leap adjustments). -/
def dayLen : Nat := 86400

/-- Date (day index) of a timestamp: the ISO date part of the instant. -/
def dateOf (t : Nat) : Nat := t / dayLen

structure Category where
  id : String
  name : String
  color : String
deriving DecidableEq

structure Task where
  id : String
  title : String
  description : Option String
  completed : Bool
  due_date : Option Nat
  priority : String
  estimated_time : Option Nat
  created_at : Nat
  category : Option Category
deriving DecidableEq

structure TimeEntry where
  id : String
  task_id : String
  start_time : Nat
  end_time : Option Nat
  duration : Option Nat
deriving DecidableEq

/-! ## Task Filter (Tasks page, filterTasks) -/

/-- JavaScript style whitespace predicate for trim. -/
def isWs (c : Char) : Bool := c == ' ' || c == '\t' || c == '\n' || c == '\r'

/-- Model of String.prototype.trim. -/
def jsTrim (s : String) : String :=
  ⟨((s.data.dropWhile isWs).reverse.dropWhile isWs).reverse⟩

/-- Lower-casing of a string, modelling toLowerCase. -/
def lowerStr (s : String) : String := ⟨s.data.map Char.toLower⟩

def prefOf : List Char → List Char → Bool
  | [], _ => true
  | _ :: _, [] => false
  | a :: as, b :: bs => a == b && prefOf as bs

/-- Substring containment on character lists. -/
def subOf (needle : List Char) : List Char → Bool
  | [] => prefOf needle []
  | b :: bs => prefOf needle (b :: bs) || subOf needle bs

/-- Model of hay.toLowerCase().includes(pat.toLowerCase()). -/
def strIncludes (hay pat : String) : Bool :=
  subOf (lowerStr pat).data (lowerStr hay).data

/-- Search predicate of filterTasks: title or (present) description
contains the query case-insensitively. -/
def searchMatch (q : String) (t : Task) : Bool :=
  strIncludes t.title q ||
    (match t.description with
     | some d => strIncludes d q
     | none => false)

/-- Status predicate of filterTasks for a non-all status value. -/
def statusMatch (statusFilter : String) (t : Task) : Bool :=
  if statusFilter == "completed" then t.completed else !t.completed

/-- The filterTasks pipeline from the Tasks page: search filter, then
status filter, then priority filter, each applied only when active. -/
def filterTasks (tasks : List Task) (searchQuery statusFilter priorityFilter : String) :
    List Task :=
  let afterSearch :=
    if jsTrim searchQuery == "" then tasks
    else tasks.filter (fun t => searchMatch searchQuery t)
  let afterStatus :=
    if statusFilter == "all" then afterSearch
    else afterSearch.filter (fun t => statusMatch statusFilter t)
  if priorityFilter == "all" then afterStatus
  else afterStatus.filter (fun t => t.priority == priorityFilter)

/-- Overdue check of the Tasks page: strictly past due and the first
task in the full task list carrying this due_date is not completed. -/
def isOverdue (tasks : List Task) (dueDate now : Nat) : Bool :=
  decide (dueDate < now) &&
    !(((tasks.find? (fun t => t.due_date == some dueDate)).map Task.completed).getD false)

/-! ## Dashboard statistics (Dashboard page, fetchTasks) -/

structure DashStats where
  totalTasks : Nat
  completedTasks : Nat
  todayTasks : Nat
  overdueTasks : Nat
deriving DecidableEq

/-- Midnight at the start of the day containing now. -/
def todayStart (now : Nat) : Nat := (now / dayLen) * dayLen

/-- Statistics computed by the Dashboard fetchTasks handler. -/
def dashboardStats (tasks : List Task) (now : Nat) : DashStats :=
  let today := todayStart now
  { totalTasks := tasks.length
    completedTasks := (tasks.filter (fun t => t.completed)).length
    todayTasks :=
      (tasks.filter (fun t =>
        match t.due_date with
        | none => false
        | some d => decide (today ≤ d) && decide (d < today + dayLen))).length
    overdueTasks :=
      (tasks.filter (fun t =>
        match t.due_date with
        | none => false
        | some d => !t.completed && decide (d < today))).length }

/-! ## Timer Session (Timer page) -/

inductive ToastKind where
  | normal
  | destructive
deriving DecidableEq

inductive RepoCall where
  | insertEntry (taskId : String) (startTime : Nat)
  | updateEntry (entryId : String) (endTime : Nat) (dur : Nat)
deriving DecidableEq

structure TimerState where
  isRunning : Bool
  currentTime : Nat
  activeEntryId : Option String
deriving DecidableEq

/-- Observable outcome of a timer handler: the component state after the
call, the repository calls it issued, and the toasts it emitted. -/
structure TimerResult where
  state : TimerState
  calls : List RepoCall
  toasts : List ToastKind
deriving DecidableEq

/-- The startTimer handler. With no selected task it emits a destructive
toast and returns before any repository call; otherwise it inserts an
open entry and, on success, enters the running state with a reset
counter and the new active entry id. -/
def startTimer (st : TimerState) (selectedTaskId : String) (now : Nat)
    (newId : String) (repoOk : Bool) : TimerResult :=
  if selectedTaskId == "" then
    { state := st, calls := [], toasts := [.destructive] }
  else if repoOk then
    { state := { isRunning := true, currentTime := 0, activeEntryId := some newId }
      calls := [.insertEntry selectedTaskId now]
      toasts := [.normal] }
  else
    { state := st, calls := [.insertEntry selectedTaskId now], toasts := [.destructive] }

/-- The stopTimer handler. With no active entry id it returns silently;
otherwise it updates the entry with end time and the counter value and,
on success, resets the session to idle. -/
def stopTimer (st : TimerState) (now : Nat) (repoOk : Bool) : TimerResult :=
  match st.activeEntryId with
  | none => { state := st, calls := [], toasts := [] }
  | some eid =>
    if repoOk then
      { state := { isRunning := false, currentTime := 0, activeEntryId := none }
        calls := [.updateEntry eid now st.currentTime]
        toasts := [.normal] }
    else
      { state := st, calls := [.updateEntry eid now st.currentTime], toasts := [.destructive] }

/-! ## Analytics Aggregator (Analytics page, fetchAnalytics)

All derived numeric values are exact: Math.round of a quotient of
naturals is embedded as roundDiv, with a bridging lemma to the
mathematical round function on the rationals proved below. -/

/-- Math.round (a / b) for naturals with b positive: round half up,
which on nonnegative values is round half away from zero. -/
def roundDiv (a b : Nat) : Nat := (2 * a + b) / (2 * b)

/-- Days of the aggregation window: one bucket key per day stepped from
startDate while not past endDate, keyed by the date part. -/
def windowDays (s e : Nat) : List Nat :=
  if s ≤ e then (List.range ((e - s) / dayLen + 1)).map (fun k => dateOf s + k) else []

structure DayBucket where
  date : Nat
  completed : Nat
  total : Nat
deriving DecidableEq

/-- One step of the daily-completion forEach: bump the bucket of the
creation date of the task when that date has a bucket, else no change. -/
def bumpDaily (acc : List DayBucket) (t : Task) : List DayBucket :=
  let cd := dateOf t.created_at
  if acc.any (fun b => b.date == cd) then
    acc.map (fun b =>
      if b.date = cd then
        { b with
          total := b.total + 1
          completed := if t.completed then b.completed + 1 else b.completed }
      else b)
  else acc

/-- The dailyData map: zero buckets for every window day, then one bump
per task. -/
def dailyData (tasks : List Task) (s e : Nat) : List DayBucket :=
  tasks.foldl bumpDaily ((windowDays s e).map (fun d => ⟨d, 0, 0⟩))

/-- The dailyCompletion display series: trailing 7 buckets of dailyData
(weekday relabeling of the date is view formatting and is dropped). -/
def dailyCompletion (tasks : List Task) (s e : Nat) : List DayBucket :=
  let l := dailyData tasks s e
  l.drop (l.length - 7)

structure CatEntry where
  name : String
  value : Nat
  color : String
deriving DecidableEq

/-- One step of the category forEach: tasks without a category are
skipped; a known category name bumps its count, a new one appends an
entry carrying the color of this task. -/
def bumpCat (acc : List CatEntry) (t : Task) : List CatEntry :=
  match t.category with
  | none => acc
  | some c =>
    if acc.any (fun en => en.name == c.name) then
      acc.map (fun en => if en.name = c.name then { en with value := en.value + 1 } else en)
    else acc ++ [⟨c.name, 1, c.color⟩]

/-- The category histogram, in insertion order of first occurrence. -/
def categoryBreakdown (tasks : List Task) : List CatEntry :=
  tasks.foldl bumpCat []

/-- Minutes credited to one time entry: Math.round((duration or 0)/60). -/
def entryMinutes (en : TimeEntry) : Nat := roundDiv (en.duration.getD 0) 60

/-- One step of the time-spent forEach: accumulate the minutes of the
entry under the date part of its start time, appending a new pair on
first occurrence of that date. -/
def bumpTime (acc : List (Nat × Nat)) (en : TimeEntry) : List (Nat × Nat) :=
  let d := dateOf en.start_time
  let m := entryMinutes en
  if acc.any (fun p => p.1 == d) then
    acc.map (fun p => if p.1 = d then (p.1, p.2 + m) else p)
  else acc ++ [(d, m)]

/-- The timeData map in insertion order of first occurrence. -/
def timeData (entries : List TimeEntry) : List (Nat × Nat) :=
  entries.foldl bumpTime []

/-- The timeSpent display series: the trailing 7 pairs of the timeData
map in its insertion order (weekday relabeling dropped). -/
def timeSpent (entries : List TimeEntry) : List (Nat × Nat) :=
  let l := timeData entries
  l.drop (l.length - 7)

/-- Start of the trailing 7-day sub-window ending at e. -/
def weekStartOf (e : Nat) : Nat := e - 7 * dayLen

/-- Tasks created in the trailing 7-day sub-window. -/
def weekTasksOf (tasks : List Task) (e : Nat) : List Task :=
  tasks.filter (fun t => decide (weekStartOf e ≤ t.created_at))

/-- Time entries started in the trailing 7-day sub-window. -/
def weekEntriesOf (entries : List TimeEntry) (e : Nat) : List TimeEntry :=
  entries.filter (fun en => decide (weekStartOf e ≤ en.start_time))

/-- Completed tasks of the sub-window. -/
def weekCompletedCount (tasks : List Task) (e : Nat) : Nat :=
  ((weekTasksOf tasks e).filter (fun t => t.completed)).length

/-- Tracked seconds of the sub-window: sum of (duration or 0). -/
def weekSeconds (entries : List TimeEntry) (e : Nat) : Nat :=
  (weekEntriesOf entries e).foldl (fun total en => total + en.duration.getD 0) 0

structure WeeklyStats where
  tasksCompleted : Nat
  timeTracked : Nat
  averageTimePerTask : Nat
  completionRate : Nat
deriving DecidableEq

/-- The weekly stats block of fetchAnalytics. -/
def weeklyStats (tasks : List Task) (entries : List TimeEntry) (e : Nat) : WeeklyStats :=
  let tasksCompleted := weekCompletedCount tasks e
  let timeTracked := weekSeconds entries e
  { tasksCompleted
    timeTracked := roundDiv timeTracked 60
    averageTimePerTask :=
      if tasksCompleted > 0 then roundDiv timeTracked (tasksCompleted * 60) else 0
    completionRate :=
      if (weekTasksOf tasks e).length > 0 then
        roundDiv (tasksCompleted * 100) (weekTasksOf tasks e).length
      else 0 }

structure AnalyticsData where
  dailyCompletion : List DayBucket
  categoryBreakdown : List CatEntry
  timeSpent : List (Nat × Nat)
  weeklyStats : WeeklyStats
deriving DecidableEq

/-- The full aggregation over the already-fetched collections, for the
window from s to e inclusive. -/
def aggregate (tasks : List Task) (entries : List TimeEntry) (s e : Nat) : AnalyticsData :=
  { dailyCompletion := dailyCompletion tasks s e
    categoryBreakdown := categoryBreakdown tasks
    timeSpent := timeSpent entries
    weeklyStats := weeklyStats tasks entries e }

/-- The tasks query of fetchAnalytics: created_at at or after startDate. -/
def fetchedTasks (allTasks : List Task) (s : Nat) : List Task :=
  allTasks.filter (fun t => decide (s ≤ t.created_at))

/-- The time-entries query of fetchAnalytics: start_time at or after
startDate and duration not null. -/
def fetchedEntries (allEntries : List TimeEntry) (s : Nat) : List TimeEntry :=
  allEntries.filter (fun en => decide (s ≤ en.start_time) && en.duration.isSome)

/-- fetchAnalytics: query both collections then aggregate. -/
def fetchAnalytics (allTasks : List Task) (allEntries : List TimeEntry) (s e : Nat) :
    AnalyticsData :=
  aggregate (fetchedTasks allTasks s) (fetchedEntries allEntries s) s e

/-! ## Derived specification helpers

Observation functions used to state properties of the maps built by the
aggregation folds. -/

/-- Value stored for day d in a date-keyed list of pairs. -/
def lookupMin (d : Nat) (l : List (Nat × Nat)) : Option Nat :=
  (l.find? (fun p => p.1 == d)).map Prod.snd

/-- Whether some entry starts on day d. -/
def hasDay (d : Nat) (entries : List TimeEntry) : Bool :=
  entries.any (fun en => dateOf en.start_time == d)

/-- Total minutes credited to day d: per-entry rounded minutes of the
entries starting on d. -/
def minutesOn (d : Nat) (entries : List TimeEntry) : Nat :=
  ((entries.filter (fun en => dateOf en.start_time == d)).map entryMinutes).sum

/-- Whether the task carries a category named n. -/
def hasCat (n : String) (t : Task) : Bool :=
  match t.category with
  | some c => c.name == n
  | none => false

/-- Number of tasks carrying a category named n. -/
def catCount (n : String) (tasks : List Task) : Nat :=
  (tasks.filter (hasCat n)).length

/-- Color of the category of a task, empty when absent. -/
def catColor (t : Task) : String :=
  match t.category with
  | some c => c.color
  | none => ""

/-- Histogram entry stored for category name n. -/
def lookupCat (n : String) (l : List CatEntry) : Option CatEntry :=
  l.find? (fun en => en.name == n)

/-- Conjunction of the three filter conditions of the Tasks page, with
the all values passing everything. -/
def keepsTask (q st pr : String) (t : Task) : Bool :=
  searchMatch q t && (st == "all" || statusMatch st t) && (pr == "all" || t.priority == pr)

/-! ## Concrete sample data used by individual claims -/

def c3cex1 : Task := ⟨"t1", "a", none, true, none, "low", none, 86410, none⟩

def c3cex2 : Task := ⟨"t2", "b", none, true, none, "low", none, 86420, none⟩

def c3cex3 : Task := ⟨"t3", "c", none, false, some 86450, "low", none, 86430, none⟩

def c3wit1 : Task := ⟨"w1", "a", none, true, none, "low", none, 86410, none⟩

def c3wit2 : Task := ⟨"w2", "b", none, true, none, "low", none, 86420, none⟩

def c3wit3 : Task := ⟨"w3", "c", none, false, some 100, "low", none, 86430, none⟩

def c4cex1 : TimeEntry := ⟨"e1", "t1", 2 * 86400 + 10, some (2 * 86400 + 610), some 600⟩

def c4wit1 : TimeEntry := ⟨"w1", "t1", 2 * 86400 + 10, some (2 * 86400 + 610), some 600⟩

def c4wit2 : TimeEntry := ⟨"w2", "t1", 2 * 86400 + 700, some (2 * 86400 + 1600), some 900⟩

def c6task : Task := ⟨"t1", "a", none, true, none, "low", none, 0, none⟩

def c6entry : TimeEntry := ⟨"e1", "t1", 0, some 300, some 300⟩

def c8t1 : Task := ⟨"t1", "My Task", none, false, none, "high", none, 50, none⟩

def c8t2 : Task := ⟨"t2", "other", none, false, none, "low", none, 60, none⟩

def c9first : Task := ⟨"a", "a", none, true, some 100, "low", none, 0, none⟩

def c9second : Task := ⟨"b", "b", none, false, some 100, "low", none, 0, none⟩

def c10a : Task := ⟨"a", "a", none, true, none, "low", none, 0, some ⟨"c1", "Work", "red"⟩⟩

def c10b : Task := ⟨"b", "b", none, true, none, "low", none, 0, some ⟨"c2", "Work", "blue"⟩⟩

def c10c : Task := ⟨"c", "c", none, true, none, "low", none, 0, some ⟨"c3", "Home", "green"⟩⟩

/-! ## General lemmas -/

/-- roundDiv is exactly the mathematical round (half away from zero on
nonnegative values) of the rational quotient, that is Math.round. -/
theorem roundDiv_eq_round (a b : Nat) (hb : 0 < b) :
    (roundDiv a b : Int) = round ((a : Rat) / (b : Rat)) := by
  have hb2 : (b : Rat) ≠ 0 := by positivity
  have h1 : (a : Rat) / (b : Rat) + 1 / 2 = ((2 * a + b : Nat) : Rat) / ((2 * b : Nat) : Rat) := by
    push_cast
    field_simp
    ring
  rw [round_eq, h1, Rat.floor_natCast_div_natCast]
  simp [roundDiv]

theorem lookupMin_nil (d : Nat) : lookupMin d [] = none := rfl

theorem lookupMin_cons (d : Nat) (p : Nat × Nat) (l : List (Nat × Nat)) :
    lookupMin d (p :: l) = if p.1 = d then some p.2 else lookupMin d l := by
  simp only [lookupMin, List.find?]
  by_cases h : p.1 = d
  · simp [h]
  · simp [h, beq_eq_false_iff_ne.mpr h]

theorem any_eq_isSome_lookupMin (d : Nat) (l : List (Nat × Nat)) :
    (l.any (fun p => p.1 == d)) = (lookupMin d l).isSome := by
  induction l with
  | nil => rfl
  | cons p rest ih =>
    simp only [List.any_cons, lookupMin_cons]
    by_cases h : p.1 = d
    · simp [h]
    · simp [h, ih]

theorem lookupMin_map_bump_eq (d m : Nat) (l : List (Nat × Nat)) :
    lookupMin d (l.map (fun p => if p.1 = d then (p.1, p.2 + m) else p)) =
      (lookupMin d l).map (fun v => v + m) := by
  induction l with
  | nil => rfl
  | cons p rest ih =>
    simp only [List.map_cons]
    by_cases hpd : p.1 = d
    · rw [if_pos hpd, lookupMin_cons, lookupMin_cons, if_pos hpd, if_pos hpd]
      simp
    · rw [if_neg hpd, lookupMin_cons, lookupMin_cons, if_neg hpd, if_neg hpd, ih]

theorem lookupMin_map_bump_ne (d c m : Nat) (hdc : d ≠ c) (l : List (Nat × Nat)) :
    lookupMin d (l.map (fun p => if p.1 = c then (p.1, p.2 + m) else p)) =
      lookupMin d l := by
  induction l with
  | nil => rfl
  | cons p rest ih =>
    simp only [List.map_cons]
    by_cases hpc : p.1 = c
    · have hpd : ¬ p.1 = d := by omega
      rw [if_pos hpc, lookupMin_cons, lookupMin_cons, if_neg hpd, if_neg hpd, ih]
    · rw [if_neg hpc, lookupMin_cons, lookupMin_cons, ih]

theorem lookupMin_append_single (d : Nat) (x : Nat × Nat) (l : List (Nat × Nat)) :
    lookupMin d (l ++ [x]) =
      match lookupMin d l with
      | some v => some v
      | none => if x.1 = d then some x.2 else none := by
  induction l with
  | nil => simp [lookupMin_nil, lookupMin_cons]
  | cons p rest ih =>
    by_cases hpd : p.1 = d
    · simp only [List.cons_append, lookupMin_cons, if_pos hpd]
    · simp only [List.cons_append, lookupMin_cons, if_neg hpd, ih]

theorem lookupMin_bumpTime (d : Nat) (en : TimeEntry) (acc : List (Nat × Nat)) :
    lookupMin d (bumpTime acc en) =
      if dateOf en.start_time = d then
        match lookupMin d acc with
        | some v => some (v + entryMinutes en)
        | none => some (entryMinutes en)
      else lookupMin d acc := by
  unfold bumpTime
  by_cases hany : (acc.any (fun p => p.1 == dateOf en.start_time)) = true
  · rw [if_pos hany]
    by_cases hd : dateOf en.start_time = d
    · subst hd
      rw [lookupMin_map_bump_eq, if_pos rfl]
      have hs : (lookupMin (dateOf en.start_time) acc).isSome := by
        rw [← any_eq_isSome_lookupMin]; exact hany
      rcases h : lookupMin (dateOf en.start_time) acc with _ | v
      · rw [h] at hs; simp at hs
      · simp
    · rw [lookupMin_map_bump_ne d _ _ (fun hh => hd hh.symm), if_neg hd]
  · rw [if_neg hany, lookupMin_append_single]
    have hfalse : (acc.any (fun p => p.1 == dateOf en.start_time)) = false :=
      Bool.not_eq_true _ ▸ hany
    by_cases hd : dateOf en.start_time = d
    · have hn : lookupMin d acc = none := by
        have := any_eq_isSome_lookupMin d acc
        rw [hd] at hfalse
        rw [hfalse] at this
        exact Option.not_isSome_iff_eq_none.mp (by rw [← this]; simp)
      rw [hn, if_pos hd]
    · rcases h : lookupMin d acc with _ | v
      · simp [if_neg hd]
      · simp [h, hd]

theorem timeData_fold (entries : List TimeEntry) :
    ∀ (acc : List (Nat × Nat)) (d : Nat),
      lookupMin d (entries.foldl bumpTime acc) =
        if (lookupMin d acc).isSome || hasDay d entries then
          some ((lookupMin d acc).getD 0 + minutesOn d entries)
        else none := by
  induction entries with
  | nil =>
    intro acc d
    rcases h : lookupMin d acc with _ | v <;> simp [h, hasDay, minutesOn]
  | cons en rest ih =>
    intro acc d
    rw [List.foldl_cons, ih]
    rw [lookupMin_bumpTime]
    by_cases hd : dateOf en.start_time = d
    · have hda : hasDay d (en :: rest) = true := by simp [hasDay, hd]
      have hmin : minutesOn d (en :: rest) = entryMinutes en + minutesOn d rest := by
        simp [minutesOn, List.filter_cons, hd]
      rw [if_pos hd, hda, hmin]
      rcases h : lookupMin d acc with _ | v
      · simp [Nat.add_comm]
      · simp [Nat.add_assoc]
    · have hda : hasDay d (en :: rest) = hasDay d rest := by simp [hasDay, hd]
      have hmin : minutesOn d (en :: rest) = minutesOn d rest := by
        simp [minutesOn, List.filter_cons, hd]
      rw [if_neg hd, hda, hmin]

theorem timeData_lookup (entries : List TimeEntry) (d : Nat) :
    lookupMin d (timeData entries) =
      if hasDay d entries then some (minutesOn d entries) else none := by
  rw [timeData, timeData_fold]
  simp [lookupMin_nil]

theorem lookupCat_nil (n : String) : lookupCat n [] = none := rfl

theorem lookupCat_cons (n : String) (x : CatEntry) (l : List CatEntry) :
    lookupCat n (x :: l) = if x.name = n then some x else lookupCat n l := by
  simp only [lookupCat, List.find?]
  by_cases h : x.name = n
  · simp [h]
  · simp [h, beq_eq_false_iff_ne.mpr h]

theorem any_eq_isSome_lookupCat (n : String) (l : List CatEntry) :
    (l.any (fun en => en.name == n)) = (lookupCat n l).isSome := by
  induction l with
  | nil => rfl
  | cons x rest ih =>
    simp only [List.any_cons, lookupCat_cons]
    by_cases h : x.name = n
    · simp [h]
    · simp [h, ih]

theorem lookupCat_map_bump_eq (n : String) (l : List CatEntry) :
    lookupCat n (l.map (fun en => if en.name = n then { en with value := en.value + 1 } else en)) =
      (lookupCat n l).map (fun en => { en with value := en.value + 1 }) := by
  induction l with
  | nil => rfl
  | cons x rest ih =>
    simp only [List.map_cons]
    by_cases hx : x.name = n
    · rw [if_pos hx, lookupCat_cons, lookupCat_cons, if_pos hx, if_pos hx]
      simp
    · rw [if_neg hx, lookupCat_cons, lookupCat_cons, if_neg hx, if_neg hx, ih]

theorem lookupCat_map_bump_ne (n c : String) (hnc : n ≠ c) (l : List CatEntry) :
    lookupCat n (l.map (fun en => if en.name = c then { en with value := en.value + 1 } else en)) =
      lookupCat n l := by
  induction l with
  | nil => rfl
  | cons x rest ih =>
    simp only [List.map_cons]
    by_cases hx : x.name = c
    · have hxn : ¬ x.name = n := by rw [hx]; exact fun hh => hnc hh.symm
      rw [if_pos hx, lookupCat_cons, lookupCat_cons, if_neg hxn, if_neg hxn, ih]
    · rw [if_neg hx, lookupCat_cons, lookupCat_cons, ih]

theorem lookupCat_append_single (n : String) (x : CatEntry) (l : List CatEntry) :
    lookupCat n (l ++ [x]) =
      match lookupCat n l with
      | some en => some en
      | none => if x.name = n then some x else none := by
  induction l with
  | nil => simp [lookupCat_nil, lookupCat_cons]
  | cons p rest ih =>
    by_cases hp : p.name = n
    · simp only [List.cons_append, lookupCat_cons, if_pos hp]
    · simp only [List.cons_append, lookupCat_cons, if_neg hp, ih]

theorem lookupCat_bumpCat (n : String) (t : Task) (acc : List CatEntry) :
    lookupCat n (bumpCat acc t) =
      if hasCat n t = true then
        match lookupCat n acc with
        | some en => some { en with value := en.value + 1 }
        | none => some ⟨n, 1, catColor t⟩
      else lookupCat n acc := by
  unfold bumpCat
  rcases hcat : t.category with _ | c
  · simp [hasCat, hcat]
  · have hcmatch : hasCat n t = (c.name == n) := by simp [hasCat, hcat]
    dsimp only
    by_cases hany : (acc.any (fun en => en.name == c.name)) = true
    · rw [if_pos hany]
      by_cases hcn : c.name = n
      · subst hcn
        rw [lookupCat_map_bump_eq]
        have hs : (lookupCat c.name acc).isSome := by
          rw [← any_eq_isSome_lookupCat]; exact hany
        rw [hcmatch]
        rcases h : lookupCat c.name acc with _ | en
        · rw [h] at hs; simp at hs
        · simp
      · rw [lookupCat_map_bump_ne n c.name (fun hh => hcn hh.symm), hcmatch]
        simp [beq_eq_false_iff_ne.mpr hcn]
    · rw [if_neg hany, lookupCat_append_single]
      have hfalse : (acc.any (fun en => en.name == c.name)) = false :=
        Bool.not_eq_true _ ▸ hany
      by_cases hcn : c.name = n
      · have hn : lookupCat n acc = none := by
          have h2 := any_eq_isSome_lookupCat n acc
          rw [hcn] at hfalse
          rw [hfalse] at h2
          exact Option.not_isSome_iff_eq_none.mp (by rw [← h2]; simp)
        rw [hn, hcmatch]
        simp [hcn, catColor, hcat]
      · rw [hcmatch]
        simp only [beq_eq_false_iff_ne.mpr hcn, Bool.false_eq_true, if_false]
        rcases h : lookupCat n acc with _ | en
        · simp [if_neg hcn]
        · simp

theorem catData_fold (tasks : List Task) :
    ∀ (acc : List CatEntry) (n : String),
      lookupCat n (tasks.foldl bumpCat acc) =
        match lookupCat n acc with
        | some en => some { en with value := en.value + catCount n tasks }
        | none =>
          match tasks.find? (hasCat n) with
          | some t0 => some ⟨n, catCount n tasks, catColor t0⟩
          | none => none := by
  induction tasks with
  | nil =>
    intro acc n
    rcases h : lookupCat n acc with _ | en <;> simp [h, catCount]
  | cons t rest ih =>
    intro acc n
    rw [List.foldl_cons, ih, lookupCat_bumpCat]
    rcases hc : hasCat n t with _ | _
    · have hcount : catCount n (t :: rest) = catCount n rest := by
        simp [catCount, List.filter_cons, hc]
      have hfind : (t :: rest).find? (hasCat n) = rest.find? (hasCat n) := by
        simp [List.find?, hc]
      rw [if_neg (by simp [hc]), hcount, hfind]
    · have hcount : catCount n (t :: rest) = catCount n rest + 1 := by
        simp [catCount, List.filter_cons, hc]
      have hfind : (t :: rest).find? (hasCat n) = some t := by
        simp [List.find?, hc]
      rw [if_pos (by simp [hc]), hcount, hfind]
      rcases h : lookupCat n acc with _ | en
      · have : 1 + catCount n rest = catCount n rest + 1 := by omega
        simp [this]
      · have : en.value + 1 + catCount n rest = en.value + (catCount n rest + 1) := by omega
        simp [this]

theorem categoryBreakdown_lookup (tasks : List Task) (n : String) :
    lookupCat n (categoryBreakdown tasks) =
      match tasks.find? (hasCat n) with
      | some t0 => some ⟨n, catCount n tasks, catColor t0⟩
      | none => none := by
  rw [categoryBreakdown, catData_fold]
  simp [lookupCat_nil]

/-- An optionally applied filter stage yields a sublist of its input. -/
theorem ite_filter_sub (l : List Task) (c : Bool) (p : Task → Bool) :
    (if c then l else l.filter p).Sublist l := by
  cases c
  · simp [List.filter_sublist]
  · simp

/-! ## Claims -/

/-- Claim C1, counterexample: for the default 30-day window and empty
input collections, neither the returned daily-completion series nor the
returned time-series covers every day of the window: the former is
sliced to 7 buckets and the latter is empty, against 31 window days. -/
theorem C1_counterexample :
    (aggregate [] [] 0 (30 * 86400)).timeSpent.length ≠ (windowDays 0 (30 * 86400)).length ∧
    (aggregate [] [] 0 (30 * 86400)).dailyCompletion.length ≠ (windowDays 0 (30 * 86400)).length := by
  decide

/-- Claim C1 as amended: for every window, aggregate on empty
collections returns (totally, no failure possible) a snapshot whose
daily-completion series is the trailing slice of the zero-filled
buckets built over every window day, whose time-series is empty, whose
category histogram is empty, and whose weekly stats are all zero. -/
theorem C1_empty_aggregate (s e : Nat) :
    aggregate ([] : List Task) ([] : List TimeEntry) s e =
      { dailyCompletion :=
          ((windowDays s e).map (fun d => ⟨d, 0, 0⟩)).drop ((windowDays s e).length - 7)
        categoryBreakdown := []
        timeSpent := []
        weeklyStats := ⟨0, 0, 0, 0⟩ } := by
  unfold aggregate dailyCompletion dailyData categoryBreakdown timeSpent timeData weeklyStats
  unfold weekCompletedCount weekSeconds weekTasksOf weekEntriesOf
  simp [roundDiv]

/-- Claim C2, counterexample: stopping with no open entry leaves the
state unchanged and makes no repository call, but surfaces no error at
all (no toast is emitted), against the claimed PreconditionError. -/
theorem C2_counterexample :
    stopTimer ⟨false, 0, none⟩ 42 true = ⟨⟨false, 0, none⟩, [], []⟩ ∧
    ((stopTimer ⟨false, 0, none⟩ 42 true).toasts.any (fun k => k == ToastKind.destructive)) =
      false := by
  decide

/-- Claim C2 as amended: stop with no open entry returns silently: no
repository call, no state change, and no error signalled. -/
theorem C2_stop_without_entry (st : TimerState) (now : Nat) (repoOk : Bool)
    (h : st.activeEntryId = none) :
    stopTimer st now repoOk = ⟨st, [], []⟩ := by
  unfold stopTimer
  rw [h]

theorem C2_stop_without_entry_witness :
    stopTimer ⟨true, 5, none⟩ 7 false = ⟨⟨true, 5, none⟩, [], []⟩ :=
  C2_stop_without_entry ⟨true, 5, none⟩ 7 false rfl

/-- Claim C3, counterexample: three tasks created today, two completed,
and one pending task whose due date 86450 is strictly earlier than the
current instant 86500 but not earlier than the start of the day; the
Dashboard yields totalTasks 3 and completedTasks 2 as claimed but
overdueTasks 0, not 1, because the code compares the due date against
the start of the current day. -/
theorem C3_counterexample :
    (dashboardStats [c3cex1, c3cex2, c3cex3] 86500).totalTasks = 3 ∧
    (dashboardStats [c3cex1, c3cex2, c3cex3] 86500).completedTasks = 2 ∧
    c3cex3.completed = false ∧ c3cex3.due_date = some 86450 ∧ 86450 < 86500 ∧
    dateOf 86430 = dateOf 86500 ∧
    (dashboardStats [c3cex1, c3cex2, c3cex3] 86500).overdueTasks ≠ 1 := by
  decide

/-- Claim C3 as amended: for three tasks of which two are completed and
one is pending with a due date strictly earlier than the start of the
current day, the Dashboard yields totalTasks 3, completedTasks 2 and
overdueTasks 1. -/
theorem C3_dashboard_stats (t1 t2 t3 : Task) (now d : Nat)
    (h1 : t1.completed = true) (h2 : t2.completed = true) (h3 : t3.completed = false)
    (hd : t3.due_date = some d) (hlt : d < todayStart now) :
    (dashboardStats [t1, t2, t3] now).totalTasks = 3 ∧
    (dashboardStats [t1, t2, t3] now).completedTasks = 2 ∧
    (dashboardStats [t1, t2, t3] now).overdueTasks = 1 := by
  unfold dashboardStats
  refine ⟨rfl, ?_, ?_⟩
  · simp [List.filter_cons, h1, h2, h3]
  · rcases e1 : t1.due_date with _ | d1 <;> rcases e2 : t2.due_date with _ | d2 <;>
      simp [List.filter_cons, h1, h2, h3, hd, hlt, e1, e2]

theorem C3_dashboard_stats_witness :
    (dashboardStats [c3wit1, c3wit2, c3wit3] 86500).totalTasks = 3 ∧
    (dashboardStats [c3wit1, c3wit2, c3wit3] 86500).completedTasks = 2 ∧
    (dashboardStats [c3wit1, c3wit2, c3wit3] 86500).overdueTasks = 1 :=
  C3_dashboard_stats c3wit1 c3wit2 c3wit3 86500 100 rfl rfl rfl rfl (by decide)

/-- Claim C4, counterexample: for the 30-day window starting at 0 and a
single closed entry on day 2, the displayed time-series consists of the
single day 2, not the trailing 7 calendar days 24..30 of the window. -/
theorem C4_counterexample :
    (aggregate [] [c4cex1] 0 (30 * 86400)).timeSpent.map Prod.fst = [2] ∧
    (windowDays 0 (30 * 86400)).drop ((windowDays 0 (30 * 86400)).length - 7) =
      [24, 25, 26, 27, 28, 29, 30] ∧
    ([2] : List Nat) ≠ [24, 25, 26, 27, 28, 29, 30] := by
  decide

/-- Claim C4 as amended: the fetched entries all have a non-null
duration; the per-day accumulation credits to every day the sum of the
per-entry values round(duration / 60) of the entries starting on that
day, and holds no bucket for dates without entries; in particular two
same-day entries of 600 and 900 seconds give that day 25 minutes. The
displayed series is the trailing 7 pairs of this map in its insertion
order, not the trailing 7 calendar days of the window. -/
theorem C4_time_series :
    (∀ (allEntries : List TimeEntry) (s : Nat) (en : TimeEntry),
        en ∈ fetchedEntries allEntries s → en.duration.isSome = true) ∧
    (∀ (entries : List TimeEntry) (d : Nat),
        lookupMin d (timeData entries) =
          if hasDay d entries then some (minutesOn d entries) else none) ∧
    (∀ (e1 e2 : TimeEntry) (d : Nat),
        dateOf e1.start_time = d → dateOf e2.start_time = d →
        e1.duration = some 600 → e2.duration = some 900 →
        timeData [e1, e2] = [(d, 25)]) := by
  refine ⟨?_, ?_, ?_⟩
  · intro allEntries s en h
    simp [fetchedEntries, List.mem_filter] at h
    exact h.2.2
  · exact timeData_lookup
  · intro e1 e2 d h1 h2 hd1 hd2
    simp [timeData, bumpTime, entryMinutes, h1, h2, hd1, hd2, roundDiv]

theorem C4_time_series_witness :
    c4wit1.duration.isSome = true ∧ timeData [c4wit1, c4wit2] = [(2, 25)] :=
  ⟨C4_time_series.1 [c4wit1] 0 c4wit1 (by decide),
   C4_time_series.2.2 c4wit1 c4wit2 2 (by decide) (by decide) rfl rfl⟩

/-- Claim C5: starting the timer with an empty selected task id surfaces
a validation error (a destructive toast), performs no repository insert
and leaves the session state untouched, whatever that state is. -/
theorem C5_start_without_task (st : TimerState) (now : Nat) (newId : String) (repoOk : Bool) :
    startTimer st "" now newId repoOk = ⟨st, [], [ToastKind.destructive]⟩ := rfl

/-- Claim C6: averageTimePerTask is zero when no completed task is in
the sub-window and otherwise the rounded value of tracked seconds per
completed task per 60; completionRate is zero when the sub-window has
no task and otherwise the rounded completion percentage; both are
nonnegative, and completionRate is at most 100 whenever the sub-window
has at least one task. -/
theorem C6_weekly_stats (tasks : List Task) (entries : List TimeEntry) (e : Nat) :
    ((weeklyStats tasks entries e).tasksCompleted = 0 →
      (weeklyStats tasks entries e).averageTimePerTask = 0) ∧
    (0 < weekCompletedCount tasks e →
      ((weeklyStats tasks entries e).averageTimePerTask : Int) =
        round ((weekSeconds entries e : Rat) / (weekCompletedCount tasks e : Rat) / 60)) ∧
    ((weekTasksOf tasks e).length = 0 → (weeklyStats tasks entries e).completionRate = 0) ∧
    (0 < (weekTasksOf tasks e).length →
      ((weeklyStats tasks entries e).completionRate : Int) =
        round ((weekCompletedCount tasks e : Rat) / ((weekTasksOf tasks e).length : Rat) * 100)) ∧
    (0 ≤ (weeklyStats tasks entries e).averageTimePerTask ∧
      0 ≤ (weeklyStats tasks entries e).completionRate) ∧
    (0 < (weekTasksOf tasks e).length → (weeklyStats tasks entries e).completionRate ≤ 100) := by
  refine ⟨?_, ?_, ?_, ?_, ⟨Nat.zero_le _, Nat.zero_le _⟩, ?_⟩
  · intro h
    simp only [weeklyStats] at h ⊢
    rw [h]
    simp
  · intro h
    simp only [weeklyStats]
    rw [if_pos h, roundDiv_eq_round _ _ (Nat.mul_pos h (by norm_num))]
    congr 1
    push_cast
    rw [div_div]
  · intro h
    simp only [weeklyStats]
    rw [h]
    simp
  · intro h
    simp only [weeklyStats]
    rw [if_pos h, roundDiv_eq_round _ _ h]
    congr 1
    push_cast
    rw [div_mul_eq_mul_div]
  · intro h
    have hwc : weekCompletedCount tasks e ≤ (weekTasksOf tasks e).length :=
      List.length_filter_le _ _
    simp only [weeklyStats]
    rw [if_pos h]
    unfold roundDiv
    rw [← Nat.lt_succ_iff, Nat.div_lt_iff_lt_mul (by omega)]
    omega

theorem C6_weekly_stats_witness :
    ((weeklyStats [c6task] [c6entry] (7 * 86400)).averageTimePerTask : Int) =
      round ((weekSeconds [c6entry] (7 * 86400) : Rat) /
        (weekCompletedCount [c6task] (7 * 86400) : Rat) / 60) ∧
    (weeklyStats [c6task] [c6entry] (7 * 86400)).completionRate ≤ 100 :=
  ⟨(C6_weekly_stats [c6task] [c6entry] (7 * 86400)).2.1 (by decide),
   (C6_weekly_stats [c6task] [c6entry] (7 * 86400)).2.2.2.2.2 (by decide)⟩

/-- Claim C7: with empty search text and both selectors at all, the
filter is the identity, and for every argument combination the output
is a sublist of the input, hence order preserving. -/
theorem C7_filter_identity_sublist :
    (∀ tasks : List Task, filterTasks tasks "" "all" "all" = tasks) ∧
    (∀ (tasks : List Task) (q st pr : String), (filterTasks tasks q st pr).Sublist tasks) := by
  constructor
  · intro tasks
    rfl
  · intro tasks q st pr
    simp only [filterTasks]
    exact (ite_filter_sub _ _ _).trans ((ite_filter_sub _ _ _).trans (ite_filter_sub _ _ _))

/-- Claim C8: when the trimmed search text is nonempty, membership in
the filter output is exactly membership in the input conjoined with the
case-insensitive substring match on title or present description and
the status and priority conditions, all composed with logical and. -/
theorem C8_search_filter (tasks : List Task) (q st pr : String) (t : Task)
    (hq : jsTrim q ≠ "") :
    t ∈ filterTasks tasks q st pr ↔ t ∈ tasks ∧ keepsTask q st pr t = true := by
  have h1 : (jsTrim q == "") = false := beq_eq_false_iff_ne.mpr hq
  simp only [filterTasks, h1, Bool.false_eq_true, if_false]
  by_cases h2 : (st == "all") = true <;> by_cases h3 : (pr == "all") = true <;>
    simp [h2, h3, List.mem_filter, keepsTask] <;>
    tauto

theorem C8_search_filter_witness :
    (c8t1 ∈ filterTasks [c8t1, c8t2] "TASK" "all" "all" ↔
      c8t1 ∈ [c8t1, c8t2] ∧ keepsTask "TASK" "all" "all" c8t1 = true) ∧
    c8t1 ∈ filterTasks [c8t1, c8t2] "TASK" "all" "all" :=
  ⟨C8_search_filter [c8t1, c8t2] "TASK" "all" "all" c8t1 (by decide), by decide⟩

/-- Claim C9: the overdue indicator for a due date is computed from the
completion flag of the first task in the full list carrying that due
date, not from the rendered task itself; concretely, with a completed
first task and a pending second task sharing due date 100 before now =
200, the indicator is false for both. -/
theorem C9_overdue_first_match :
    (∀ (tasks : List Task) (d now : Nat) (u : Task),
        tasks.find? (fun x => x.due_date == some d) = some u →
        isOverdue tasks d now = (decide (d < now) && !u.completed)) ∧
    (isOverdue [c9first, c9second] 100 200 = false ∧
      c9second.due_date = some 100 ∧ c9second.completed = false ∧ 100 < 200) := by
  constructor
  · intro tasks d now u h
    unfold isOverdue
    rw [h]
    rfl
  · decide

theorem C9_overdue_first_match_witness :
    isOverdue [c9first, c9second] 100 200 = (decide (100 < 200) && !c9first.completed) :=
  C9_overdue_first_match.1 [c9first, c9second] 100 200 c9first (by decide)

/-- Claim C10: the histogram entry for a category name exists exactly
when some task carries that name; its value is the number of tasks in
the aggregation input carrying that name and its color is the category
color of the first such task in input order. -/
theorem C10_category_histogram :
    (∀ (tasks : List Task) (n : String) (t0 : Task),
        tasks.find? (hasCat n) = some t0 →
        lookupCat n (categoryBreakdown tasks) = some ⟨n, catCount n tasks, catColor t0⟩) ∧
    (∀ (tasks : List Task) (n : String),
        tasks.find? (hasCat n) = none →
        lookupCat n (categoryBreakdown tasks) = none) := by
  constructor
  · intro tasks n t0 h
    rw [categoryBreakdown_lookup, h]
  · intro tasks n h
    rw [categoryBreakdown_lookup, h]

theorem C10_category_histogram_witness :
    lookupCat "Work" (categoryBreakdown [c10a, c10b, c10c]) =
      some ⟨"Work", catCount "Work" [c10a, c10b, c10c], catColor c10a⟩ ∧
    catCount "Work" [c10a, c10b, c10c] = 2 ∧ catColor c10a = "red" :=
  ⟨C10_category_histogram.1 [c10a, c10b, c10c] "Work" c10a (by decide), by decide, by decide⟩


end TaskMint
